import Mathlib

/-!
Shallow embedding of the StockTrading confidential order-book engine
(`src/contracts/StockTrading.sol`) together with the factory lookup it
consumes (`src/contracts/StockTradingFactory.sol`, `getStockToken`) and a
plaintext model of the confidential-integer primitive (euint64) and of the
asset token's confidential transfer.

Modelling choices:
* Addresses are `Nat`, with `0` playing the role of `address(0)`.
* A `euint64` ciphertext is modelled by its plaintext, a `Nat` below `2^64`;
  homomorphic operations act on plaintexts with 64-bit wraparound.
* Reverting Solidity calls are `Except TradingError`; a revert returns no
  state, and the transaction wrapper (`runOp`) keeps the pre-state on error,
  which is exactly the ledger's full-rollback semantics.
* `msg.sender`, `msg.value` and `block.timestamp` are explicit parameters.
* The ETH payment made by `buyStock` via `transfer` is recorded in the result
  (`paidToSeller`, `refundedToBuyer`) rather than in a separate ETH ledger.
-/

namespace StockRWA

/-- The modulus `2^64` of the euint64 plaintext space. -/
def W : Nat := 2 ^ 64

/-- Plaintext model of `FHE.asEuint64`: a trivially encrypted 64-bit constant. -/
def fheAsEuint64 (n : Nat) : Nat := n % W

/-- Plaintext model of `FHE.fromExternal`: ingesting a valid external euint64
ciphertext yields the 64-bit value it encrypts. -/
def fromExternal (enc : Nat) : Nat := enc % W

/-- Plaintext model of the homomorphic comparison `FHE.le` on euint64. -/
def fheLe (a b : Nat) : Bool := Nat.ble a b

/-- Plaintext model of the homomorphic conditional `FHE.select`. -/
def fheSelect (c : Bool) (a b : Nat) : Nat := if c then a else b

/-- Plaintext model of the homomorphic subtraction `FHE.sub` on euint64:
64-bit wraparound subtraction. -/
def fheSub (a b : Nat) : Nat := (a + (W - b % W)) % W

/-- Plaintext model of the homomorphic addition used by the token's balance
update: 64-bit wraparound addition. -/
def fheAdd (a b : Nat) : Nat := (a + b) % W

/-- The `Order` struct of `StockTrading.sol`. -/
structure Order where
  seller : Nat
  stockName : String
  amount : Nat
  pricePerToken : Nat
  isActive : Bool
  timestamp : Nat
deriving DecidableEq

/-- The default value of the `orders` mapping: all fields zero. -/
def Order.empty : Order := ⟨0, "", 0, 0, false, 0⟩

/-- The persistent storage of the `StockTrading` contract. -/
structure TradingState where
  orders : Nat → Order
  userOrders : Nat → List Nat
  orderCounter : Nat

/-- Pointwise update of a mapping, as a Solidity storage write. -/
def updateFun {α : Type} (f : Nat → α) (i : Nat) (v : α) : Nat → α :=
  fun j => if j = i then v else f j

/-- The custom errors of `StockTrading.sol` (plus the factory's
`StockNotFound`, which shares its name). -/
inductive TradingError where
  | OrderNotFound
  | OrderExpired
  | OrderNotActive
  | OnlySellerCanCancel
  | InsufficientPayment
  | InvalidAmount
  | StockNotFound
deriving DecidableEq

/-- `StockTradingFactory.getStockToken`: returns the registered token address
for a stock name and reverts with `StockNotFound` when none is registered.
The factory registry is modelled as the map `ft` (0 meaning absent). -/
def getStockToken (ft : String → Nat) (name : String) : Except TradingError Nat :=
  if ft name = 0 then .error .StockNotFound else .ok (ft name)

/-- `ORDER_EXPIRY = 24 hours`, in seconds. -/
def ORDER_EXPIRY : Nat := 24 * 60 * 60

/-- Result of a successful `createSellOrder`: the new storage and the
returned order id. -/
structure CreateResult where
  state : TradingState
  orderId : Nat

/-- `StockTrading.createSellOrder`. Resolves the stock name through the
factory (reverting with `StockNotFound` when unregistered — the contract's
own zero-address check is repeated as in the source, though the factory
already reverted), ingests the encrypted amount, increments `orderCounter`,
stores the new order as active with the current timestamp, appends the id to
the seller's index and returns it. -/
def createSellOrder (st : TradingState) (ft : String → Nat)
    (sender ts : Nat) (name : String) (enc price : Nat) :
    Except TradingError CreateResult :=
  match getStockToken ft name with
  | .error e => .error e
  | .ok tokenAddress =>
    if tokenAddress = 0 then .error .StockNotFound
    else
      let amount := fromExternal enc
      let ctr := st.orderCounter + 1
      let newOrder : Order := ⟨sender, name, amount, price, true, ts⟩
      let st2 : TradingState :=
        ⟨updateFun st.orders ctr newOrder,
         updateFun st.userOrders sender (st.userOrders sender ++ [ctr]),
         ctr⟩
      .ok ⟨st2, ctr⟩

/-- Model of the asset token collaborator's `confidentialTransferFrom`
(OpenZeppelin `ConfidentialFungibleToken._update`, an external dependency of
the repository): the amount actually moved is clamped by homomorphic select
to zero when the requested amount exceeds the sender's balance, the sender's
balance is decremented and then the recipient's (possibly just-updated)
balance is incremented; the call does not fail on insufficient balance.
Returns the updated balance map and the amount actually moved. -/
def confidentialTransferFrom (bal : Nat → Nat → Nat)
    (token fromAddr toAddr amt : Nat) : (Nat → Nat → Nat) × Nat :=
  let moved := fheSelect (fheLe amt (bal token fromAddr)) amt (fheAsEuint64 0)
  let bal1 : Nat → Nat → Nat := fun t a =>
    if t = token ∧ a = fromAddr then fheSub (bal token fromAddr) moved else bal t a
  let bal2 : Nat → Nat → Nat := fun t a =>
    if t = token ∧ a = toAddr then fheAdd (bal1 token toAddr) moved else bal1 t a
  (bal2, moved)

/-- Result of a successful `buyStock`: new storage, new token balances, the
quantity actually moved from seller to buyer, and the two clear-text ETH
transfers the contract performs (flat price to the seller, excess refunded
to the buyer). -/
structure FillResult where
  state : TradingState
  balances : Nat → Nat → Nat
  transferred : Nat
  paidToSeller : Nat
  refundedToBuyer : Nat

/-- `StockTrading.buyStock` (the fill operation). Checks, in source order:
order exists, order active, not expired (`block.timestamp >
timestamp + ORDER_EXPIRY` reverts), then ingests the requested amount,
clamps it to zero via `select (le requested remaining)`, checks
`msg.value >= pricePerToken`, resolves the token through the factory, asks
the token to move the clamped amount from seller to buyer, subtracts the
clamped amount homomorphically from the order's remaining amount, pays the
flat `pricePerToken` to the seller and refunds any excess `msg.value` to
the buyer. -/
def buyStock (st : TradingState) (ft : String → Nat) (bal : Nat → Nat → Nat)
    (sender msgValue ts orderId enc : Nat) : Except TradingError FillResult :=
  let order := st.orders orderId
  if order.seller = 0 then .error .OrderNotFound
  else if order.isActive = false then .error .OrderNotActive
  else if order.timestamp + ORDER_EXPIRY < ts then .error .OrderExpired
  else
    let requestedAmount := fromExternal enc
    let canBuy := fheLe requestedAmount order.amount
    let transferAmount := fheSelect canBuy requestedAmount (fheAsEuint64 0)
    if msgValue < order.pricePerToken then .error .InsufficientPayment
    else
      match getStockToken ft order.stockName with
      | .error e => .error e
      | .ok tokenAddress =>
        let tr := confidentialTransferFrom bal tokenAddress order.seller sender transferAmount
        let newAmount := fheSub order.amount transferAmount
        let st2 : TradingState :=
          ⟨updateFun st.orders orderId { order with amount := newAmount },
           st.userOrders, st.orderCounter⟩
        let refund := if order.pricePerToken < msgValue then msgValue - order.pricePerToken else 0
        .ok ⟨st2, tr.1, tr.2, order.pricePerToken, refund⟩

/-- `StockTrading.cancelOrder`. Checks, in source order: order exists, caller
is the seller, order still active; then deactivates the order. -/
def cancelOrder (st : TradingState) (sender orderId : Nat) :
    Except TradingError TradingState :=
  let order := st.orders orderId
  if order.seller = 0 then .error .OrderNotFound
  else if order.seller ≠ sender then .error .OnlySellerCanCancel
  else if order.isActive = false then .error .OrderNotActive
  else
    .ok ⟨updateFun st.orders orderId { order with isActive := false },
         st.userOrders, st.orderCounter⟩

/-- The whole on-chain system the engine touches: the contract's storage and
the token balances of the asset tokens. The factory registry is passed
separately (the engine only reads it). -/
structure Sys where
  st : TradingState
  balances : Nat → Nat → Nat

/-- One external transaction against the engine, with its sender, value and
block timestamp. -/
inductive Op where
  | create (sender ts enc price : Nat) (name : String)
  | buy (sender msgValue ts orderId enc : Nat)
  | cancel (sender orderId : Nat)

/-- Ledger semantics of one transaction: apply the called function; on a
revert the pre-state is kept unchanged (full rollback). The second component
is the order id returned by a successful `createSellOrder`. -/
def runOp (ft : String → Nat) (sys : Sys) (op : Op) : Sys × Option Nat :=
  match op with
  | .create sender ts enc price name =>
    match createSellOrder sys.st ft sender ts name enc price with
    | .ok r => (⟨r.state, sys.balances⟩, some r.orderId)
    | .error _ => (sys, none)
  | .buy sender msgValue ts orderId enc =>
    match buyStock sys.st ft sys.balances sender msgValue ts orderId enc with
    | .ok r => (⟨r.state, r.balances⟩, none)
    | .error _ => (sys, none)
  | .cancel sender orderId =>
    match cancelOrder sys.st sender orderId with
    | .ok st2 => (⟨st2, sys.balances⟩, none)
    | .error _ => (sys, none)

/-- Serial execution of a transaction list, collecting in order the ids
returned by the successful order creations. -/
def runOps (ft : String → Nat) : Sys → List Op → Sys × List Nat
  | sys, [] => (sys, [])
  | sys, op :: ops =>
    let step := runOp ft sys op
    let rest := runOps ft step.1 ops
    (rest.1, match step.2 with | some n => n :: rest.2 | none => rest.2)

/-- The contract's storage right after deployment: every mapping empty,
`orderCounter = 0`. -/
def initialState : TradingState := ⟨fun _ => Order.empty, fun _ => [], 0⟩

/-- A freshly deployed system over arbitrary pre-existing token balances. -/
def initialSys (bal : Nat → Nat → Nat) : Sys := ⟨initialState, bal⟩

/-- The order ids handed out by the engine over a whole lifetime of
transactions starting from deployment. -/
def createdIds (ft : String → Nat) (bal : Nat → Nat → Nat) (ops : List Op) : List Nat :=
  (runOps ft (initialSys bal) ops).2

/-- Storage slots beyond the current counter are still unwritten. This holds
at deployment and is preserved by every operation. -/
def SlotsBounded (st : TradingState) : Prop :=
  ∀ j, st.orderCounter < j → st.orders j = Order.empty

/-! Derived forms of the operations and arithmetic facts about the
plaintext FHE model, used throughout the proofs. -/

/-- The result a successful fill produces, as a function of the inputs. -/
def fillResultOf (st : TradingState) (ft : String → Nat) (bal : Nat → Nat → Nat)
    (sender msgValue orderId enc : Nat) : FillResult :=
  let order := st.orders orderId
  let transferAmount :=
    fheSelect (fheLe (fromExternal enc) order.amount) (fromExternal enc) (fheAsEuint64 0)
  let tr := confidentialTransferFrom bal (ft order.stockName) order.seller sender transferAmount
  ⟨⟨updateFun st.orders orderId { order with amount := fheSub order.amount transferAmount },
    st.userOrders, st.orderCounter⟩,
   tr.1, tr.2, order.pricePerToken,
   if order.pricePerToken < msgValue then msgValue - order.pricePerToken else 0⟩

lemma buyStock_eq_ok (st : TradingState) (ft : String → Nat) (bal : Nat → Nat → Nat)
    (sender msgValue ts orderId enc : Nat)
    (h1 : (st.orders orderId).seller ≠ 0)
    (h2 : (st.orders orderId).isActive = true)
    (h3 : ¬ ((st.orders orderId).timestamp + ORDER_EXPIRY < ts))
    (h4 : ¬ (msgValue < (st.orders orderId).pricePerToken))
    (h5 : ft (st.orders orderId).stockName ≠ 0) :
    buyStock st ft bal sender msgValue ts orderId enc =
      Except.ok (fillResultOf st ft bal sender msgValue orderId enc) := by
  simp only [buyStock, getStockToken, fillResultOf]
  rw [if_neg h1, if_neg (by simp [h2]), if_neg h3, if_neg h4, if_neg h5]

lemma buyStock_ok_inv (st : TradingState) (ft : String → Nat) (bal : Nat → Nat → Nat)
    (sender msgValue ts orderId enc : Nat) (r : FillResult)
    (h : buyStock st ft bal sender msgValue ts orderId enc = Except.ok r) :
    (st.orders orderId).seller ≠ 0 ∧ (st.orders orderId).isActive = true
    ∧ ¬ ((st.orders orderId).timestamp + ORDER_EXPIRY < ts)
    ∧ ¬ (msgValue < (st.orders orderId).pricePerToken)
    ∧ ft (st.orders orderId).stockName ≠ 0
    ∧ r = fillResultOf st ft bal sender msgValue orderId enc := by
  by_cases h1 : (st.orders orderId).seller = 0
  · rw [buyStock] at h
    simp only [if_pos h1] at h
    exact Except.noConfusion h
  by_cases h2 : (st.orders orderId).isActive = false
  · rw [buyStock] at h
    simp only [if_neg h1, if_pos h2] at h
    exact Except.noConfusion h
  by_cases h3 : (st.orders orderId).timestamp + ORDER_EXPIRY < ts
  · rw [buyStock] at h
    simp only [if_neg h1, if_neg h2, if_pos h3] at h
    exact Except.noConfusion h
  by_cases h4 : msgValue < (st.orders orderId).pricePerToken
  · rw [buyStock] at h
    simp only [if_neg h1, if_neg h2, if_neg h3, if_pos h4] at h
    exact Except.noConfusion h
  by_cases h5 : ft (st.orders orderId).stockName = 0
  · rw [buyStock] at h
    simp only [getStockToken, if_neg h1, if_neg h2, if_neg h3, if_neg h4, if_pos h5] at h
    exact Except.noConfusion h
  have h2' : (st.orders orderId).isActive = true := by
    cases hb : (st.orders orderId).isActive
    · exact absurd hb h2
    · rfl
  rw [buyStock_eq_ok st ft bal sender msgValue ts orderId enc h1 h2' h3 h4 h5] at h
  injection h with h
  exact ⟨h1, h2', h3, h4, h5, h.symm⟩

lemma fheAsEuint64_zero : fheAsEuint64 0 = 0 := by
  simp [fheAsEuint64]

lemma fheSub_zero (a : Nat) (h : a < W) : fheSub a 0 = a := by
  simp [fheSub, Nat.mod_eq_of_lt h]

lemma fheAdd_zero (a : Nat) (h : a < W) : fheAdd a 0 = a := by
  simp [fheAdd, Nat.mod_eq_of_lt h]

lemma fheSub_of_le (a b : Nat) (hb : b ≤ a) (ha : a < W) : fheSub a b = a - b := by
  have hbW : b % W = b := Nat.mod_eq_of_lt (lt_of_le_of_lt hb ha)
  have h2 : a + (W - b) = (a - b) + W := by
    have : b ≤ W := Nat.le_of_lt (lt_of_le_of_lt hb ha)
    omega
  rw [fheSub, hbW, h2, Nat.add_mod_right, Nat.mod_eq_of_lt (by omega)]

lemma fheLe_false (a b : Nat) (h : b < a) : fheLe a b = false := by
  rw [fheLe, Bool.eq_false_iff]
  intro hc
  exact absurd (Nat.le_of_ble_eq_true hc) (Nat.not_le.mpr h)

lemma fheLe_true (a b : Nat) (h : a ≤ b) : fheLe a b = true := by
  rw [fheLe]
  exact Nat.ble_eq.mpr h

lemma fheLe_zero (b : Nat) : fheLe 0 b = true :=
  fheLe_true 0 b (Nat.zero_le b)

/-- Transferring a confidential zero moves nothing and leaves every balance
unchanged (balances being well-formed 64-bit values). -/
lemma confidentialTransferFrom_zero (bal : Nat → Nat → Nat) (token fromAddr toAddr : Nat)
    (hb : ∀ a, bal token a < W) :
    (confidentialTransferFrom bal token fromAddr toAddr 0).2 = 0
    ∧ ∀ t a, (confidentialTransferFrom bal token fromAddr toAddr 0).1 t a = bal t a := by
  have hmoved : fheSelect (fheLe 0 (bal token fromAddr)) 0 (fheAsEuint64 0) = 0 := by
    simp [fheLe_zero, fheSelect]
  constructor
  · simp [confidentialTransferFrom, hmoved]
  · intro t a
    simp only [confidentialTransferFrom, hmoved]
    split
    · next h1 =>
      obtain ⟨h1a, h1b⟩ := h1
      split
      · next h2 =>
        rw [fheSub_zero _ (hb _), fheAdd_zero _ (hb _), h1a, h1b, h2.2]
      · next h2 =>
        rw [fheAdd_zero _ (hb _), h1a, h1b]
    · next h1 =>
      split
      · next h2 =>
        obtain ⟨h2a, h2b⟩ := h2
        rw [fheSub_zero _ (hb _), h2a, h2b]
      · rfl

/-- A confidential transfer from an account to itself leaves every balance
unchanged: the decrement and increment cancel. -/
lemma confidentialTransferFrom_self (bal : Nat → Nat → Nat) (token addr amt : Nat)
    (hb : bal token addr < W) :
    ∀ t a, (confidentialTransferFrom bal token addr addr amt).1 t a = bal t a := by
  intro t a
  simp only [confidentialTransferFrom]
  have hle : fheSelect (fheLe amt (bal token addr)) amt (fheAsEuint64 0) ≤ bal token addr := by
    cases hc : fheLe amt (bal token addr)
    · simp [fheSelect, fheAsEuint64]
    · simp only [fheSelect, if_pos rfl]
      exact Nat.le_of_ble_eq_true hc
  by_cases h1 : t = token ∧ a = addr
  · obtain ⟨rfl, rfl⟩ := h1
    simp only [confidentialTransferFrom, and_self, ite_true]
    rw [fheSub_of_le _ _ hle hb, fheAdd, Nat.sub_add_cancel hle, Nat.mod_eq_of_lt hb]
  · simp [confidentialTransferFrom, h1]

lemma createSellOrder_eq_ok (st : TradingState) (ft : String → Nat)
    (sender ts : Nat) (name : String) (enc price : Nat) (h : ft name ≠ 0) :
    createSellOrder st ft sender ts name enc price =
      Except.ok ⟨⟨updateFun st.orders (st.orderCounter + 1)
                    ⟨sender, name, fromExternal enc, price, true, ts⟩,
                  updateFun st.userOrders sender
                    (st.userOrders sender ++ [st.orderCounter + 1]),
                  st.orderCounter + 1⟩,
                 st.orderCounter + 1⟩ := by
  simp [createSellOrder, getStockToken, h]

lemma createSellOrder_ok_inv (st : TradingState) (ft : String → Nat)
    (sender ts : Nat) (name : String) (enc price : Nat) (r : CreateResult)
    (h : createSellOrder st ft sender ts name enc price = Except.ok r) :
    ft name ≠ 0
    ∧ r = ⟨⟨updateFun st.orders (st.orderCounter + 1)
              ⟨sender, name, fromExternal enc, price, true, ts⟩,
            updateFun st.userOrders sender
              (st.userOrders sender ++ [st.orderCounter + 1]),
            st.orderCounter + 1⟩,
           st.orderCounter + 1⟩ := by
  by_cases hn : ft name = 0
  · rw [createSellOrder, getStockToken] at h
    simp only [if_pos hn] at h
    exact Except.noConfusion h
  · rw [createSellOrder_eq_ok st ft sender ts name enc price hn] at h
    injection h with h
    exact ⟨hn, h.symm⟩

lemma cancelOrder_eq_ok (st : TradingState) (sender orderId : Nat)
    (h1 : (st.orders orderId).seller ≠ 0)
    (h2 : (st.orders orderId).seller = sender)
    (h3 : (st.orders orderId).isActive = true) :
    cancelOrder st sender orderId =
      Except.ok ⟨updateFun st.orders orderId { st.orders orderId with isActive := false },
                 st.userOrders, st.orderCounter⟩ := by
  simp only [cancelOrder]
  rw [if_neg h1, if_neg (by simp [h2]), if_neg (by simp [h3])]

lemma cancelOrder_ok_inv (st : TradingState) (sender orderId : Nat) (st2 : TradingState)
    (h : cancelOrder st sender orderId = Except.ok st2) :
    st2.orderCounter = st.orderCounter ∧ st2.userOrders = st.userOrders
    ∧ st2.orders = updateFun st.orders orderId
        { st.orders orderId with isActive := false }
    ∧ (st.orders orderId).seller ≠ 0 := by
  by_cases h1 : (st.orders orderId).seller = 0
  · rw [cancelOrder] at h
    simp only [if_pos h1] at h
    exact Except.noConfusion h
  by_cases h2 : (st.orders orderId).seller ≠ sender
  · rw [cancelOrder] at h
    simp only [if_neg h1, if_pos h2] at h
    exact Except.noConfusion h
  by_cases h3 : (st.orders orderId).isActive = false
  · rw [cancelOrder] at h
    simp only [if_neg h1, if_neg h2, if_pos h3] at h
    exact Except.noConfusion h
  · rw [cancelOrder] at h
    simp only [if_neg h1, if_neg h2, if_neg h3] at h
    injection h with h
    rw [← h]
    exact ⟨rfl, rfl, rfl, h1⟩

/-! Concrete fixtures used by the witness theorems: a registry with one stock
"AAPL" at token address 7, a seller 5 holding 1000 units, and an active order
1 over 100 units at price 10 created at time 50. -/

def cFt : String → Nat := fun n => if n = "AAPL" then 7 else 0

def cBal : Nat → Nat → Nat := fun t a => if t = 7 ∧ a = 5 then 1000 else 0

def cOrder : Order := ⟨5, "AAPL", 100, 10, true, 50⟩

def cSt : TradingState :=
  ⟨fun i => if i = 1 then cOrder else Order.empty,
   fun u => if u = 5 then [1] else [], 1⟩

def cOrderInactive : Order := ⟨5, "AAPL", 100, 10, false, 50⟩

def cStInactive : TradingState :=
  ⟨fun i => if i = 1 then cOrderInactive else Order.empty,
   fun u => if u = 5 then [1] else [], 1⟩

def cSys1 : Sys := ⟨cSt, cBal⟩

def cSys2 : Sys := ⟨cSt, fun _ _ => 0⟩

/-- C1: for every existing, active, unexpired order and every fill call with
`msg.value ≥ pricePerToken`, if the requested (ingested) encrypted amount is
strictly greater than the order's remaining amount, then `buyStock` commits
successfully, moves exactly zero units from seller to buyer (every token
balance is unchanged), and leaves the order's remaining amount unchanged —
the homomorphic subtraction subtracts the clamped zero. -/
theorem buyStock_infeasible_request_zero_transfer
    (st : TradingState) (ft : String → Nat) (bal : Nat → Nat → Nat)
    (sender msgValue ts orderId enc : Nat)
    (hseller : (st.orders orderId).seller ≠ 0)
    (hactive : (st.orders orderId).isActive = true)
    (hexp : ts ≤ (st.orders orderId).timestamp + ORDER_EXPIRY)
    (hpay : (st.orders orderId).pricePerToken ≤ msgValue)
    (hft : ft (st.orders orderId).stockName ≠ 0)
    (hamt : (st.orders orderId).amount < W)
    (hreq : (st.orders orderId).amount < fromExternal enc)
    (hbal : ∀ a, bal (ft (st.orders orderId).stockName) a < W) :
    ∃ r, buyStock st ft bal sender msgValue ts orderId enc = Except.ok r
      ∧ r.transferred = 0
      ∧ (r.state.orders orderId).amount = (st.orders orderId).amount
      ∧ ∀ t a, r.balances t a = bal t a := by
  have hsel : fheSelect (fheLe (fromExternal enc) (st.orders orderId).amount)
      (fromExternal enc) (fheAsEuint64 0) = 0 := by
    rw [fheLe_false _ _ hreq]
    simp [fheSelect, fheAsEuint64_zero]
  have hzero := confidentialTransferFrom_zero bal (ft (st.orders orderId).stockName)
    (st.orders orderId).seller sender hbal
  refine ⟨fillResultOf st ft bal sender msgValue orderId enc,
    buyStock_eq_ok st ft bal sender msgValue ts orderId enc hseller hactive
      (not_lt.mpr hexp) (not_lt.mpr hpay) hft, ?_, ?_, ?_⟩
  · simp only [fillResultOf, hsel]
    exact hzero.1
  · simp only [fillResultOf, hsel, updateFun]
    simp [fheSub_zero _ hamt]
  · intro t a
    simp only [fillResultOf, hsel]
    exact hzero.2 t a

/-- Witness for C1: on the concrete fixture, requesting 150 of the 100
remaining units commits, transfers zero and leaves the remaining amount and
all balances unchanged. -/
theorem buyStock_infeasible_request_zero_transfer_witness :
    ∃ r, buyStock cSt cFt cBal 9 15 60 1 150 = Except.ok r
      ∧ r.transferred = 0
      ∧ (r.state.orders 1).amount = (cSt.orders 1).amount
      ∧ ∀ t a, r.balances t a = cBal t a :=
  buyStock_infeasible_request_zero_transfer cSt cFt cBal 9 15 60 1 150
    (by decide) (by decide) (by decide) (by decide) (by decide) (by decide) (by decide)
    (by
      intro a
      simp only [cBal]
      split <;> decide)

/-- C2 counterexample: cancelling an already-cancelled order is NOT
`OrderNotActive` for every caller — a non-seller caller (9, while the seller
is 5) fails with `OnlySellerCanCancel` instead, because the seller check
precedes the active check. -/
theorem cancelOrder_inactive_nonseller_cex :
    (cStInactive.orders 1).isActive = false
    ∧ (cStInactive.orders 1).seller ≠ 0
    ∧ (9 : Nat) ≠ (cStInactive.orders 1).seller
    ∧ cancelOrder cStInactive 9 1 = Except.error TradingError.OnlySellerCanCancel
    ∧ cancelOrder cStInactive 9 1 ≠ Except.error TradingError.OrderNotActive := by
  refine ⟨rfl, by decide, by decide, rfl, ?_⟩
  intro h
  rw [show cancelOrder cStInactive 9 1 = Except.error TradingError.OnlySellerCanCancel
    from rfl] at h
  injection h with h2
  exact TradingError.noConfusion h2

/-- C2 (amended): for an existing, already-inactive order, a cancel call by
the seller fails with `OrderNotActive`, while a call by any other caller
fails with `OnlySellerCanCancel` (the seller check precedes the active
check). -/
theorem cancelOrder_inactive_error (st : TradingState) (sender orderId : Nat)
    (h1 : (st.orders orderId).seller ≠ 0)
    (h2 : (st.orders orderId).isActive = false) :
    (sender = (st.orders orderId).seller →
      cancelOrder st sender orderId = Except.error TradingError.OrderNotActive)
    ∧ (sender ≠ (st.orders orderId).seller →
      cancelOrder st sender orderId = Except.error TradingError.OnlySellerCanCancel) := by
  constructor
  · intro hs
    simp only [cancelOrder]
    rw [if_neg h1, if_neg (fun hne => hne hs.symm), if_pos h2]
  · intro hs
    simp only [cancelOrder]
    rw [if_neg h1, if_pos (fun he => hs he.symm)]

/-- Witness for C2 (amended): on the cancelled fixture order, the seller (5)
gets `OrderNotActive` and a stranger (9) gets `OnlySellerCanCancel`. -/
theorem cancelOrder_inactive_error_witness :
    cancelOrder cStInactive 5 1 = Except.error TradingError.OrderNotActive
    ∧ cancelOrder cStInactive 9 1 = Except.error TradingError.OnlySellerCanCancel := by
  have ha := cancelOrder_inactive_error cStInactive 5 1 (by decide) rfl
  have hb := cancelOrder_inactive_error cStInactive 9 1 (by decide) rfl
  exact ⟨ha.1 (by decide), hb.2 (by decide)⟩

/-- C3: every fill that commits pays the seller exactly the flat
`pricePerToken`, requires `msg.value ≥ pricePerToken`, and refunds the buyer
exactly `msg.value - pricePerToken` (zero when equal) — independently of the
requested or transferred encrypted quantity, over which the statement is
universally quantified. -/
theorem buyStock_flat_payment (st : TradingState) (ft : String → Nat)
    (bal : Nat → Nat → Nat) (sender msgValue ts orderId enc : Nat) {r : FillResult}
    (h : buyStock st ft bal sender msgValue ts orderId enc = Except.ok r) :
    r.paidToSeller = (st.orders orderId).pricePerToken
    ∧ (st.orders orderId).pricePerToken ≤ msgValue
    ∧ r.refundedToBuyer = msgValue - (st.orders orderId).pricePerToken := by
  obtain ⟨h1, h2, h3, h4, h5, hr⟩ :=
    buyStock_ok_inv st ft bal sender msgValue ts orderId enc r h
  subst hr
  refine ⟨rfl, Nat.not_lt.mp h4, ?_⟩
  simp only [fillResultOf]
  by_cases hlt : (st.orders orderId).pricePerToken < msgValue
  · rw [if_pos hlt]
  · rw [if_neg hlt]
    omega

/-- Witness for C3: on the concrete fixture (price 10, payment 15), the
seller is paid exactly 10 and the buyer refunded exactly 5. -/
theorem buyStock_flat_payment_witness :
    ∃ r, buyStock cSt cFt cBal 9 15 60 1 40 = Except.ok r
      ∧ r.paidToSeller = 10 ∧ r.refundedToBuyer = 5 := by
  have he : buyStock cSt cFt cBal 9 15 60 1 40 =
      Except.ok (fillResultOf cSt cFt cBal 9 15 1 40) :=
    buyStock_eq_ok cSt cFt cBal 9 15 60 1 40
      (by decide) (by decide) (by decide) (by decide) (by decide)
  have h := buyStock_flat_payment cSt cFt cBal 9 15 60 1 40 he
  refine ⟨_, he, ?_, ?_⟩
  · rw [h.1]
    decide
  · rw [h.2.2]
    decide

/-- C4: `buyStock` checks its four preconditions in source order — order
exists (`OrderNotFound`), order active (`OrderNotActive`), not expired
(`OrderExpired`), payment at least the flat price (`InsufficientPayment`) —
each failure a distinct error, and any failing call leaves the whole system
unchanged (full rollback: `runOp` keeps the pre-state and moves no value). -/
theorem buyStock_precondition_order (ft : String → Nat) (sys : Sys)
    (sender msgValue ts orderId enc : Nat) :
    ((sys.st.orders orderId).seller = 0 →
      buyStock sys.st ft sys.balances sender msgValue ts orderId enc
        = Except.error TradingError.OrderNotFound)
    ∧ ((sys.st.orders orderId).seller ≠ 0 →
       (sys.st.orders orderId).isActive = false →
      buyStock sys.st ft sys.balances sender msgValue ts orderId enc
        = Except.error TradingError.OrderNotActive)
    ∧ ((sys.st.orders orderId).seller ≠ 0 →
       (sys.st.orders orderId).isActive = true →
       (sys.st.orders orderId).timestamp + ORDER_EXPIRY < ts →
      buyStock sys.st ft sys.balances sender msgValue ts orderId enc
        = Except.error TradingError.OrderExpired)
    ∧ ((sys.st.orders orderId).seller ≠ 0 →
       (sys.st.orders orderId).isActive = true →
       ¬ ((sys.st.orders orderId).timestamp + ORDER_EXPIRY < ts) →
       msgValue < (sys.st.orders orderId).pricePerToken →
      buyStock sys.st ft sys.balances sender msgValue ts orderId enc
        = Except.error TradingError.InsufficientPayment)
    ∧ (∀ e, buyStock sys.st ft sys.balances sender msgValue ts orderId enc
        = Except.error e →
      runOp ft sys (Op.buy sender msgValue ts orderId enc) = (sys, none)) := by
  refine ⟨?_, ?_, ?_, ?_, ?_⟩
  · intro h1
    rw [buyStock]
    simp only [if_pos h1]
  · intro h1 h2
    rw [buyStock]
    simp only [if_neg h1, if_pos h2]
  · intro h1 h2 h3
    rw [buyStock]
    simp only [if_neg h1, if_neg (by simp [h2] : ¬((sys.st.orders orderId).isActive = false)),
      if_pos h3]
  · intro h1 h2 h3 h4
    rw [buyStock]
    simp only [if_neg h1, if_neg (by simp [h2] : ¬((sys.st.orders orderId).isActive = false)),
      if_neg h3, if_pos h4]
  · intro e he
    simp only [runOp, he]

/-- Witness for C4: on a freshly deployed system no order 1 exists, so a fill
against it fails with `OrderNotFound`. -/
theorem buyStock_precondition_order_witness :
    buyStock (initialSys cBal).st cFt (initialSys cBal).balances 9 15 60 1 40
      = Except.error TradingError.OrderNotFound :=
  (buyStock_precondition_order cFt (initialSys cBal) 9 15 60 1 40).1 rfl

/-- C5: the fill-expiry boundary is inclusive — with the other preconditions
met, a fill at time exactly `createdAt + ORDER_EXPIRY` succeeds, while a fill
at `createdAt + ORDER_EXPIRY + 1` fails with `OrderExpired`. -/
theorem buyStock_expiry_boundary (st : TradingState) (ft : String → Nat)
    (bal : Nat → Nat → Nat) (sender msgValue orderId enc : Nat)
    (h1 : (st.orders orderId).seller ≠ 0)
    (h2 : (st.orders orderId).isActive = true)
    (h4 : (st.orders orderId).pricePerToken ≤ msgValue)
    (h5 : ft (st.orders orderId).stockName ≠ 0) :
    (∃ r, buyStock st ft bal sender msgValue
        ((st.orders orderId).timestamp + ORDER_EXPIRY) orderId enc = Except.ok r)
    ∧ buyStock st ft bal sender msgValue
        ((st.orders orderId).timestamp + ORDER_EXPIRY + 1) orderId enc
      = Except.error TradingError.OrderExpired := by
  constructor
  · exact ⟨_, buyStock_eq_ok st ft bal sender msgValue _ orderId enc h1 h2
      (lt_irrefl _) (not_lt.mpr h4) h5⟩
  · rw [buyStock]
    simp only [if_neg h1, if_neg (by simp [h2] : ¬((st.orders orderId).isActive = false)),
      if_pos (Nat.lt_succ_self _)]

/-- Witness for C5: on the fixture order created at 50, a fill at
`50 + ORDER_EXPIRY` succeeds and a fill at `50 + ORDER_EXPIRY + 1` fails with
`OrderExpired`. -/
theorem buyStock_expiry_boundary_witness :
    (∃ r, buyStock cSt cFt cBal 9 15 (50 + ORDER_EXPIRY) 1 40 = Except.ok r)
    ∧ buyStock cSt cFt cBal 9 15 (50 + ORDER_EXPIRY + 1) 1 40
      = Except.error TradingError.OrderExpired :=
  buyStock_expiry_boundary cSt cFt cBal 9 15 1 40
    (by decide) (by decide) (by decide) (by decide)

/-- C7: an order past its expiry window (`now > createdAt + ORDER_EXPIRY`)
that is still active can still be cancelled by its seller (expiry does not
block cancellation, and the order ends inactive), while every fill against
it fails with `OrderExpired`. -/
theorem expired_order_cancellable_not_fillable (st : TradingState)
    (ft : String → Nat) (bal : Nat → Nat → Nat) (orderId ts : Nat)
    (h1 : (st.orders orderId).seller ≠ 0)
    (h2 : (st.orders orderId).isActive = true)
    (h3 : (st.orders orderId).timestamp + ORDER_EXPIRY < ts) :
    (∃ st2, cancelOrder st (st.orders orderId).seller orderId = Except.ok st2
      ∧ (st2.orders orderId).isActive = false)
    ∧ ∀ sender msgValue enc,
        buyStock st ft bal sender msgValue ts orderId enc
          = Except.error TradingError.OrderExpired := by
  constructor
  · refine ⟨_, cancelOrder_eq_ok st (st.orders orderId).seller orderId h1 rfl h2, ?_⟩
    simp [updateFun]
  · intro sender msgValue enc
    rw [buyStock]
    simp only [if_neg h1, if_neg (by simp [h2] : ¬((st.orders orderId).isActive = false)),
      if_pos h3]

/-- Witness for C7: the fixture order (created at 50) five seconds past its
expiry window can be cancelled by its seller 5 but no longer filled. -/
theorem expired_order_cancellable_not_fillable_witness :
    (∃ st2, cancelOrder cSt (cSt.orders 1).seller 1 = Except.ok st2
      ∧ (st2.orders 1).isActive = false)
    ∧ ∀ sender msgValue enc,
        buyStock cSt cFt cBal sender msgValue (50 + ORDER_EXPIRY + 5) 1 enc
          = Except.error TradingError.OrderExpired :=
  expired_order_cancellable_not_fillable cSt cFt cBal 1 (50 + ORDER_EXPIRY + 5)
    (by decide) (by decide) (by decide)

/-- C9: `buyStock` places no restriction on the buyer's identity — the
order's own seller can fill their own existing, active, unexpired order with
`msg.value ≥ pricePerToken`: the call succeeds, the token transfer is a
self-transfer leaving every confidential balance unchanged, and the flat
price is paid back to the seller, exactly as for a third-party buyer. -/
theorem buyStock_self_fill (st : TradingState) (ft : String → Nat)
    (bal : Nat → Nat → Nat) (msgValue ts orderId enc : Nat)
    (h1 : (st.orders orderId).seller ≠ 0)
    (h2 : (st.orders orderId).isActive = true)
    (h3 : ts ≤ (st.orders orderId).timestamp + ORDER_EXPIRY)
    (h4 : (st.orders orderId).pricePerToken ≤ msgValue)
    (h5 : ft (st.orders orderId).stockName ≠ 0)
    (hb : bal (ft (st.orders orderId).stockName) (st.orders orderId).seller < W) :
    ∃ r, buyStock st ft bal (st.orders orderId).seller msgValue ts orderId enc
        = Except.ok r
      ∧ r.paidToSeller = (st.orders orderId).pricePerToken
      ∧ ∀ t a, r.balances t a = bal t a := by
  refine ⟨_, buyStock_eq_ok st ft bal _ msgValue ts orderId enc h1 h2
    (not_lt.mpr h3) (not_lt.mpr h4) h5, rfl, ?_⟩
  intro t a
  simp only [fillResultOf]
  exact confidentialTransferFrom_self bal _ _ _ hb t a

/-- Witness for C9: seller 5 fills their own fixture order; the call
succeeds, pays the price back to them and leaves all balances unchanged. -/
theorem buyStock_self_fill_witness :
    ∃ r, buyStock cSt cFt cBal (cSt.orders 1).seller 15 60 1 40 = Except.ok r
      ∧ r.paidToSeller = (cSt.orders 1).pricePerToken
      ∧ ∀ t a, r.balances t a = cBal t a :=
  buyStock_self_fill cSt cFt cBal 15 60 1 40
    (by decide) (by decide) (by decide) (by decide) (by decide) (by decide)

/-- C10: `createSellOrder` never inspects or moves any token balance — for
every resolvable stock name it succeeds, it leaves the balance map untouched,
and its resulting storage and returned id are identical across systems that
differ only in their token balance state (in particular when the seller
holds less of the asset than the encrypted amount posted). -/
theorem createSellOrder_ignores_balances (ft : String → Nat) (sys1 sys2 : Sys)
    (sender ts enc price : Nat) (name : String)
    (hst : sys1.st = sys2.st) (hname : ft name ≠ 0) :
    (∃ n, (runOp ft sys1 (Op.create sender ts enc price name)).2 = some n)
    ∧ (runOp ft sys1 (Op.create sender ts enc price name)).1.balances = sys1.balances
    ∧ (runOp ft sys1 (Op.create sender ts enc price name)).1.st
        = (runOp ft sys2 (Op.create sender ts enc price name)).1.st
    ∧ (runOp ft sys1 (Op.create sender ts enc price name)).2
        = (runOp ft sys2 (Op.create sender ts enc price name)).2 := by
  have hc1 := createSellOrder_eq_ok sys1.st ft sender ts name enc price hname
  have hc2 := createSellOrder_eq_ok sys2.st ft sender ts name enc price hname
  refine ⟨⟨sys1.st.orderCounter + 1, ?_⟩, ?_, ?_, ?_⟩
  · simp only [runOp, hc1]
  · simp only [runOp, hc1]
  · simp only [runOp, hc1, hc2]
    rw [hst]
  · simp only [runOp, hc1, hc2]
    rw [hst]

/-- Witness for C10: seller 5 posts 100 units of "AAPL" while holding zero
balance (`cSys2`); creation succeeds, balances are untouched, and the
resulting storage and id coincide with the run over the funded system
`cSys1`. -/
theorem createSellOrder_ignores_balances_witness :
    (∃ n, (runOp cFt cSys2 (Op.create 5 50 100 10 "AAPL")).2 = some n)
    ∧ (runOp cFt cSys2 (Op.create 5 50 100 10 "AAPL")).1.balances = cSys2.balances
    ∧ (runOp cFt cSys2 (Op.create 5 50 100 10 "AAPL")).1.st
        = (runOp cFt cSys1 (Op.create 5 50 100 10 "AAPL")).1.st
    ∧ (runOp cFt cSys2 (Op.create 5 50 100 10 "AAPL")).2
        = (runOp cFt cSys1 (Op.create 5 50 100 10 "AAPL")).2 :=
  createSellOrder_ignores_balances cFt cSys2 cSys1 5 50 100 10 "AAPL" rfl (by decide)


lemma runOp_counter_mono (ft : String → Nat) (sys : Sys) (op : Op) :
    sys.st.orderCounter ≤ ((runOp ft sys op).1).st.orderCounter := by
  cases op with
  | create sender ts enc price name =>
    cases hc : createSellOrder sys.st ft sender ts name enc price with
    | error e => simp [runOp, hc]
    | ok r =>
      obtain ⟨-, hr⟩ := createSellOrder_ok_inv sys.st ft sender ts name enc price r hc
      subst hr
      simp [runOp, hc]
  | buy sender msgValue ts orderId enc =>
    cases hb : buyStock sys.st ft sys.balances sender msgValue ts orderId enc with
    | error e => simp [runOp, hb]
    | ok r =>
      obtain ⟨-, -, -, -, -, hr⟩ :=
        buyStock_ok_inv sys.st ft sys.balances sender msgValue ts orderId enc r hb
      subst hr
      simp [runOp, hb, fillResultOf]
  | cancel sender orderId =>
    cases hcc : cancelOrder sys.st sender orderId with
    | error e => simp [runOp, hcc]
    | ok st2 =>
      obtain ⟨h1, -, -⟩ := cancelOrder_ok_inv sys.st sender orderId st2 hcc
      simp [runOp, hcc, h1]

lemma runOp_created_id (ft : String → Nat) (sys : Sys) (op : Op) (n : Nat)
    (h : (runOp ft sys op).2 = some n) :
    n = sys.st.orderCounter + 1
    ∧ ((runOp ft sys op).1).st.orderCounter = n := by
  cases op with
  | create sender ts enc price name =>
    cases hc : createSellOrder sys.st ft sender ts name enc price with
    | error e =>
      rw [show (runOp ft sys (Op.create sender ts enc price name)).2 = none by
        simp [runOp, hc]] at h
      exact Option.noConfusion h
    | ok r =>
      obtain ⟨-, hr⟩ := createSellOrder_ok_inv sys.st ft sender ts name enc price r hc
      subst hr
      rw [show (runOp ft sys (Op.create sender ts enc price name)).2
          = some (sys.st.orderCounter + 1) by simp [runOp, hc]] at h
      injection h with h
      constructor
      · exact h.symm
      · rw [← h]
        simp [runOp, hc]
  | buy sender msgValue ts orderId enc =>
    cases hb : buyStock sys.st ft sys.balances sender msgValue ts orderId enc with
    | error e =>
      rw [show (runOp ft sys (Op.buy sender msgValue ts orderId enc)).2 = none by
        simp [runOp, hb]] at h
      exact Option.noConfusion h
    | ok r =>
      rw [show (runOp ft sys (Op.buy sender msgValue ts orderId enc)).2 = none by
        simp [runOp, hb]] at h
      exact Option.noConfusion h
  | cancel sender orderId =>
    cases hcc : cancelOrder sys.st sender orderId with
    | error e =>
      rw [show (runOp ft sys (Op.cancel sender orderId)).2 = none by
        simp [runOp, hcc]] at h
      exact Option.noConfusion h
    | ok st2 =>
      rw [show (runOp ft sys (Op.cancel sender orderId)).2 = none by
        simp [runOp, hcc]] at h
      exact Option.noConfusion h

lemma runOps_mem_gt (ft : String → Nat) (ops : List Op) :
    ∀ (sys : Sys) (n : Nat), n ∈ (runOps ft sys ops).2 →
      sys.st.orderCounter < n := by
  induction ops with
  | nil =>
    intro sys n h
    simp [runOps] at h
  | cons op ops ih =>
    intro sys n h
    simp only [runOps] at h
    cases hc : (runOp ft sys op).2 with
    | none =>
      rw [hc] at h
      exact lt_of_le_of_lt (runOp_counter_mono ft sys op) (ih _ n h)
    | some m =>
      rw [hc] at h
      rcases List.mem_cons.mp h with h | h
      · subst h
        obtain ⟨h1, -⟩ := runOp_created_id ft sys op n hc
        omega
      · exact lt_of_le_of_lt (runOp_counter_mono ft sys op) (ih _ n h)

lemma runOps_pairwise (ft : String → Nat) (ops : List Op) :
    ∀ sys : Sys, List.Pairwise (fun a b => a < b) (runOps ft sys ops).2 := by
  induction ops with
  | nil =>
    intro sys
    simp [runOps]
  | cons op ops ih =>
    intro sys
    simp only [runOps]
    cases hc : (runOp ft sys op).2 with
    | none => exact ih _
    | some m =>
      refine List.Pairwise.cons ?_ (ih _)
      intro b hb
      have hgt := runOps_mem_gt ft ops (runOp ft sys op).1 b hb
      obtain ⟨-, h2⟩ := runOp_created_id ft sys op m hc
      omega


/-- C6: over any lifetime of transactions from deployment, the order ids
returned by successful `createSellOrder` calls are strictly increasing in
chronological order (hence unique and never reused) and never zero. -/
theorem createdIds_strictly_increasing (ft : String → Nat)
    (bal : Nat → Nat → Nat) (ops : List Op) :
    List.Pairwise (fun a b => a < b) (createdIds ft bal ops)
    ∧ ∀ n ∈ createdIds ft bal ops, n ≠ 0 := by
  constructor
  · exact runOps_pairwise ft ops (initialSys bal)
  · intro n hn
    have h := runOps_mem_gt ft ops (initialSys bal) n hn
    simp only [initialSys, initialState] at h
    omega

/-- Witness for C6: a lifetime of two creations hands out ids 1 then 2,
strictly increasing, and the id 2 handed out is nonzero. -/
theorem createdIds_strictly_increasing_witness :
    List.Pairwise (fun a b => a < b)
      (createdIds cFt cBal [Op.create 5 50 100 10 "AAPL", Op.create 6 51 200 20 "AAPL"])
    ∧ (2 : Nat) ≠ 0 := by
  have h := createdIds_strictly_increasing cFt cBal
    [Op.create 5 50 100 10 "AAPL", Op.create 6 51 200 20 "AAPL"]
  refine ⟨h.1, h.2 2 ?_⟩
  decide


lemma slotsBounded_preserved (ft : String → Nat) (sys : Sys) (op : Op)
    (hinv : SlotsBounded sys.st) : SlotsBounded ((runOp ft sys op).1).st := by
  cases op with
  | create sender ts enc price name =>
    cases hc : createSellOrder sys.st ft sender ts name enc price with
    | error e =>
      intro j hj
      simp only [runOp, hc] at hj ⊢
      exact hinv j hj
    | ok r =>
      obtain ⟨-, hr⟩ := createSellOrder_ok_inv sys.st ft sender ts name enc price r hc
      subst hr
      intro j hj
      simp only [runOp, hc] at hj ⊢
      have hj2 : j ≠ sys.st.orderCounter + 1 := by omega
      simp only [updateFun, if_neg hj2]
      exact hinv j (by omega)
  | buy sender msgValue ts orderId enc =>
    cases hb : buyStock sys.st ft sys.balances sender msgValue ts orderId enc with
    | error e =>
      intro j hj
      simp only [runOp, hb] at hj ⊢
      exact hinv j hj
    | ok r =>
      obtain ⟨hs, -, -, -, -, hr⟩ :=
        buyStock_ok_inv sys.st ft sys.balances sender msgValue ts orderId enc r hb
      subst hr
      have hor : orderId ≤ sys.st.orderCounter := by
        by_contra hgt
        push_neg at hgt
        exact hs (by rw [hinv orderId hgt]; rfl)
      intro j hj
      simp only [runOp, hb, fillResultOf] at hj ⊢
      have hj2 : j ≠ orderId := by omega
      simp only [updateFun, if_neg hj2]
      exact hinv j hj
  | cancel sender orderId =>
    cases hcc : cancelOrder sys.st sender orderId with
    | error e =>
      intro j hj
      simp only [runOp, hcc] at hj ⊢
      exact hinv j hj
    | ok st2 =>
      obtain ⟨hctr, -, hords, hsel⟩ := cancelOrder_ok_inv sys.st sender orderId st2 hcc
      have hor : orderId ≤ sys.st.orderCounter := by
        by_contra hgt
        push_neg at hgt
        exact hsel (by rw [hinv orderId hgt]; rfl)
      intro j hj
      simp only [runOp, hcc] at hj ⊢
      rw [hctr] at hj
      rw [hords]
      have hj2 : j ≠ orderId := by omega
      simp only [updateFun, if_neg hj2]
      exact hinv j hj


/-- C8: after creation, no engine operation changes an existing order's
seller, stock name, price or creation timestamp; once inactive it never
becomes active again; and the remaining amount changes only through a fill
against that very order, and then only by homomorphic subtraction of the
clamped transfer amount. (`SlotsBounded` states that slots beyond the
counter are unwritten, which holds in every reachable state.) -/
theorem order_fields_immutable (ft : String → Nat) (sys : Sys) (op : Op) (i : Nat)
    (hinv : SlotsBounded sys.st) (hex : (sys.st.orders i).seller ≠ 0) :
    (((runOp ft sys op).1).st.orders i).seller = (sys.st.orders i).seller
    ∧ (((runOp ft sys op).1).st.orders i).stockName = (sys.st.orders i).stockName
    ∧ (((runOp ft sys op).1).st.orders i).pricePerToken = (sys.st.orders i).pricePerToken
    ∧ (((runOp ft sys op).1).st.orders i).timestamp = (sys.st.orders i).timestamp
    ∧ ((sys.st.orders i).isActive = false →
        (((runOp ft sys op).1).st.orders i).isActive = false)
    ∧ ((((runOp ft sys op).1).st.orders i).amount = (sys.st.orders i).amount
        ∨ ∃ sender msgValue ts enc,
            op = Op.buy sender msgValue ts i enc
            ∧ (((runOp ft sys op).1).st.orders i).amount
                = fheSub (sys.st.orders i).amount
                    (fheSelect (fheLe (fromExternal enc) (sys.st.orders i).amount)
                      (fromExternal enc) (fheAsEuint64 0))) := by
  have hle : i ≤ sys.st.orderCounter := by
    by_contra hgt
    push_neg at hgt
    exact hex (by rw [hinv i hgt]; rfl)
  cases op with
  | create sender ts enc price name =>
    cases hc : createSellOrder sys.st ft sender ts name enc price with
    | error e =>
      have heq : ((runOp ft sys (Op.create sender ts enc price name)).1).st.orders i
          = sys.st.orders i := by
        simp [runOp, hc]
      rw [heq]
      exact ⟨rfl, rfl, rfl, rfl, fun h => h, Or.inl rfl⟩
    | ok r =>
      obtain ⟨-, hr⟩ := createSellOrder_ok_inv sys.st ft sender ts name enc price r hc
      subst hr
      have hne : i ≠ sys.st.orderCounter + 1 := by omega
      have heq : ((runOp ft sys (Op.create sender ts enc price name)).1).st.orders i
          = sys.st.orders i := by
        simp [runOp, hc, updateFun, hne]
      rw [heq]
      exact ⟨rfl, rfl, rfl, rfl, fun h => h, Or.inl rfl⟩
  | buy sender msgValue ts orderId enc =>
    cases hb : buyStock sys.st ft sys.balances sender msgValue ts orderId enc with
    | error e =>
      have heq : ((runOp ft sys (Op.buy sender msgValue ts orderId enc)).1).st.orders i
          = sys.st.orders i := by
        simp [runOp, hb]
      rw [heq]
      exact ⟨rfl, rfl, rfl, rfl, fun h => h, Or.inl rfl⟩
    | ok r =>
      obtain ⟨-, -, -, -, -, hr⟩ :=
        buyStock_ok_inv sys.st ft sys.balances sender msgValue ts orderId enc r hb
      subst hr
      by_cases hio : orderId = i
      · subst hio
        have heq : ((runOp ft sys (Op.buy sender msgValue ts orderId enc)).1).st.orders orderId
            = { sys.st.orders orderId with
                amount := fheSub (sys.st.orders orderId).amount
                  (fheSelect (fheLe (fromExternal enc) (sys.st.orders orderId).amount)
                    (fromExternal enc) (fheAsEuint64 0)) } := by
          simp [runOp, hb, fillResultOf, updateFun]
        rw [heq]
        exact ⟨rfl, rfl, rfl, rfl, fun h => h,
          Or.inr ⟨sender, msgValue, ts, enc, rfl, rfl⟩⟩
      · have hne : i ≠ orderId := fun h => hio h.symm
        have heq : ((runOp ft sys (Op.buy sender msgValue ts orderId enc)).1).st.orders i
            = sys.st.orders i := by
          simp [runOp, hb, fillResultOf, updateFun, hne]
        rw [heq]
        exact ⟨rfl, rfl, rfl, rfl, fun h => h, Or.inl rfl⟩
  | cancel sender orderId =>
    cases hcc : cancelOrder sys.st sender orderId with
    | error e =>
      have heq : ((runOp ft sys (Op.cancel sender orderId)).1).st.orders i
          = sys.st.orders i := by
        simp [runOp, hcc]
      rw [heq]
      exact ⟨rfl, rfl, rfl, rfl, fun h => h, Or.inl rfl⟩
    | ok st2 =>
      obtain ⟨-, -, hords, -⟩ := cancelOrder_ok_inv sys.st sender orderId st2 hcc
      by_cases hio : orderId = i
      · subst hio
        have heq : ((runOp ft sys (Op.cancel sender orderId)).1).st.orders orderId
            = { sys.st.orders orderId with isActive := false } := by
          simp [runOp, hcc, hords, updateFun]
        rw [heq]
        exact ⟨rfl, rfl, rfl, rfl, fun _ => rfl, Or.inl rfl⟩
      · have hne : i ≠ orderId := fun h => hio h.symm
        have heq : ((runOp ft sys (Op.cancel sender orderId)).1).st.orders i
            = sys.st.orders i := by
          simp [runOp, hcc, hords, updateFun, hne]
        rw [heq]
        exact ⟨rfl, rfl, rfl, rfl, fun h => h, Or.inl rfl⟩

/-- Witness for C8: cancelling the fixture order changes none of its
identity fields, cannot reactivate it, and leaves its amount alone. -/
theorem order_fields_immutable_witness :
    (((runOp cFt cSys1 (Op.cancel 5 1)).1).st.orders 1).seller = (cSys1.st.orders 1).seller
    ∧ (((runOp cFt cSys1 (Op.cancel 5 1)).1).st.orders 1).stockName
        = (cSys1.st.orders 1).stockName
    ∧ (((runOp cFt cSys1 (Op.cancel 5 1)).1).st.orders 1).pricePerToken
        = (cSys1.st.orders 1).pricePerToken
    ∧ (((runOp cFt cSys1 (Op.cancel 5 1)).1).st.orders 1).timestamp
        = (cSys1.st.orders 1).timestamp
    ∧ ((cSys1.st.orders 1).isActive = false →
        (((runOp cFt cSys1 (Op.cancel 5 1)).1).st.orders 1).isActive = false)
    ∧ ((((runOp cFt cSys1 (Op.cancel 5 1)).1).st.orders 1).amount
          = (cSys1.st.orders 1).amount
        ∨ ∃ sender msgValue ts enc,
            Op.cancel 5 1 = Op.buy sender msgValue ts 1 enc
            ∧ (((runOp cFt cSys1 (Op.cancel 5 1)).1).st.orders 1).amount
                = fheSub (cSys1.st.orders 1).amount
                    (fheSelect (fheLe (fromExternal enc) (cSys1.st.orders 1).amount)
                      (fromExternal enc) (fheAsEuint64 0))) :=
  order_fields_immutable cFt cSys1 (Op.cancel 5 1) 1
    (by
      intro j hj
      simp only [cSys1, cSt] at hj
      have hne : j ≠ 1 := by omega
      simp [cSys1, cSt, hne])
    (by decide)

end StockRWA
